import Mathlib

/-!
Shallow embedding of the SEC Form-4 scraping utilities
(src/data/acquisition/utils.py) and proofs about them.

HTML pages are modelled by the pieces the code reads from them: a listing
page is a list of tables, each table a list of anchors; an index page is a
list of tables, each table a list of rows of cells.  Python dictionary
lookups that can fail are modelled with Option, and functions that can
raise return Except PyErr.
-/

/-- Errors the Python code can raise: KeyError from a dict lookup,
AttributeError from calling a method on None (BeautifulSoup find misses),
IndexError from list indexing, TypeError from concatenating str and None. -/
inductive PyErr where
  | keyError
  | attributeError
  | indexError
  | typeError
deriving Repr, DecidableEq

/-- Boolean test that one char list is a prefix of another. -/
def listPrefixB : List Char → List Char → Bool
  | [], _ => true
  | _ :: _, [] => false
  | a :: as, b :: bs => (a == b) && listPrefixB as bs

/-- Boolean substring test on char lists, the model of the Python
`needle in haystack` operator on strings. -/
def listInB (needle : List Char) : List Char → Bool
  | [] => needle.isEmpty
  | b :: bs => listPrefixB needle (b :: bs) || listInB needle bs

/-- Model of Python `needle in hay` for strings (substring containment). -/
def strIn (needle hay : String) : Bool :=
  listInB needle.toList hay.toList

/-- Model of Python `s.split(sep)` for a single-character separator:
splits into the (possibly empty) segments between occurrences of `sep`. -/
def splitCh (sep : Char) : List Char → List (List Char)
  | [] => [[]]
  | c :: cs =>
    match splitCh sep cs with
    | [] => if c == sep then [[], []] else [[c]]
    | h :: t => if c == sep then [] :: h :: t else (c :: h) :: t

/-- Model of Python `s.split(sep)[-1]`: the last segment of the split
(the split of a string is never empty, so the default is unreachable). -/
def lastSeg (sep : Char) (s : String) : List Char :=
  (splitCh sep s.toList).getLastD []

/-- An HTML anchor; its href attribute may be absent (BeautifulSoup
`tag.get` then yields None). -/
structure Anchor where
  href : Option String
deriving Repr, DecidableEq

/-- A table cell, as the code reads it: its text and the anchors inside it. -/
structure HtmlCell where
  text : String
  anchors : List Anchor
deriving Repr, DecidableEq

/-- A table row: its list of td cells. -/
structure HtmlRow where
  cells : List HtmlCell
deriving Repr, DecidableEq

/-- A directory-listing page as get_urls consumes it: the page's tables,
each reduced to the anchors it contains, in document order. -/
structure ListingPage where
  tables : List (List Anchor)
deriving Repr, DecidableEq

/-- A filing index page as get_form_4_url consumes it: the page's tables,
each a list of rows. -/
structure IndexPage where
  tables : List (List HtmlRow)
deriving Repr, DecidableEq

/-- Model of get_urls: `soup.find('table')` takes the first table; on a page
with no table it yields None and the following `.find_all('a')` raises
AttributeError.  Otherwise the hrefs of the table's anchors are returned in
order (an href may be None). -/
def get_urls (page : ListingPage) : Except PyErr (List (Option String)) :=
  match page.tables with
  | [] => .error .attributeError
  | t :: _ => .ok (t.map Anchor.href)

/-- Test from find_index_file: `url.split('-')[-1] == 'index.html'`. -/
def isIndexLink (url : String) : Bool :=
  lastSeg '-' url == String.toList "index.html"

/-- Model of find_index_file: scan the urls in order and return the first
whose split on `-` ends in "index.html"; falling off the loop returns None.
A None element (an anchor without href) makes `url.split` raise
AttributeError. -/
def find_index_file : List (Option String) → Except PyErr (Option String)
  | [] => .ok none
  | none :: _ => .error .attributeError
  | some url :: rest =>
    if isIndexLink url then .ok (some url)
    else find_index_file rest

/-- Row condition of get_form_4_url, on a row that has cells at indices 1
and 2: `('FORM 4' in col_list[1].text or 'form4' in col_list[2].text) and
col_list[2].text.split('.')[-1] == 'xml'`. -/
def rowCond (c1 c2 : HtmlCell) : Bool :=
  (strIn "FORM 4" c1.text || strIn "form4" c2.text) &&
    (lastSeg '.' c2.text == String.toList "xml")

/-- Loop body of get_form_4_url over the data rows.  A row with fewer than
three cells raises IndexError (col_list[1] or col_list[2]); on a qualifying
row, `col_list[2].find('a')` with no anchor present yields None and the
`.get('href')` raises AttributeError, otherwise the first anchor's href is
returned (itself possibly None). -/
def form4Rows : List HtmlRow → Except PyErr (Option String)
  | [] => .ok none
  | row :: rest =>
    match row.cells[1]?, row.cells[2]? with
    | some c1, some c2 =>
      if rowCond c1 c2 then
        match c2.anchors with
        | [] => .error .attributeError
        | a :: _ => .ok a.href
      else form4Rows rest
    | _, _ => .error .indexError

/-- Model of get_form_4_url composed with get_table_rows: take the first
table (AttributeError if the page has none), drop the header row, and scan
the remaining rows with form4Rows. -/
def get_form_4_url (page : IndexPage) : Except PyErr (Option String) :=
  match page.tables with
  | [] => .error .attributeError
  | tbl :: _ => form4Rows (tbl.drop 1)

/-!
Model of the parsed Form-4 ownership XML, as xmltodict presents it to
extract_data.  A leaf like `securityTitle` is accessed as
`d['securityTitle']['value']`; either missing key raises KeyError, so the
chain is modelled by one Option whose none means the chained access fails.
-/

/-- Issuer block of the ownership document. -/
structure Issuer where
  issuerCik : Option String
  issuerName : Option String
  issuerTradingSymbol : Option String
deriving Repr, DecidableEq

/-- The transactionAmounts sub-dictionary of one transaction: both leaves
are read through a `['value']` chain. -/
structure TransactionAmounts where
  transactionShares : Option String
  transactionPricePerShare : Option String
deriving Repr, DecidableEq

/-- The ownershipNature sub-dictionary of one transaction. -/
structure OwnershipNature where
  directOrIndirectOwnership : Option String
deriving Repr, DecidableEq

/-- One transaction entry of a derivative or non-derivative table. -/
structure Transaction where
  securityTitle : Option String
  transactionDate : Option String
  transactionAmounts : Option TransactionAmounts
  ownershipNature : Option OwnershipNature
deriving Repr, DecidableEq

/-- The value under a transaction-list key: xmltodict yields either a single
dictionary (one transaction in the filing) or a list of them. -/
inductive TransactionNode where
  | single (t : Transaction)
  | list (ts : List Transaction)
deriving Repr, DecidableEq

/-- Normalization performed by `if type(derivatives_data) != list:
derivatives_data = [derivatives_data]`. -/
def TransactionNode.toList : TransactionNode → List Transaction
  | .single t => [t]
  | .list ts => ts

/-- A derivative or non-derivative table: the dictionary may hold either
transaction-list key. -/
structure XmlTable where
  derivativeTransaction : Option TransactionNode
  nonDerivativeTransaction : Option TransactionNode
deriving Repr, DecidableEq

/-- The ownership document root.  For each table key the outer Option is
key presence (`derivative_type in data['ownershipDocument']`) and the inner
Option is the null test (`... != None`). -/
structure OwnershipDocument where
  issuer : Option Issuer
  derivativeTable : Option (Option XmlTable)
  nonDerivativeTable : Option (Option XmlTable)
deriving Repr, DecidableEq

/-- The derivative_type argument of extract_data; its two call sites pass
exactly the strings "derivativeTable" and "nonDerivativeTable". -/
inductive TableKind where
  | derivativeTable
  | nonDerivativeTable
deriving Repr, DecidableEq

/-- The string the TableKind stands for; it is stored verbatim in the
emitted record's derivative_type column. -/
def TableKind.str : TableKind → String
  | .derivativeTable => "derivativeTable"
  | .nonDerivativeTable => "nonDerivativeTable"

/-- Lookup of `data['ownershipDocument'][derivative_type]`. -/
def getTable (doc : OwnershipDocument) : TableKind → Option (Option XmlTable)
  | .derivativeTable => doc.derivativeTable
  | .nonDerivativeTable => doc.nonDerivativeTable

/-- Lookup of the transaction-list key matching the table kind
("derivativeTransaction" / "nonDerivativeTransaction"). -/
def getTransList (tbl : XmlTable) : TableKind → Option TransactionNode
  | .derivativeTable => tbl.derivativeTransaction
  | .nonDerivativeTable => tbl.nonDerivativeTransaction

/-- One output row of the scrape, the pandas Series appended per
qualifying transaction. -/
structure Record where
  issuerCik : String
  issuerName : String
  issuerTradingSymbol : String
  securityTitle : String
  transactionDate : String
  transactionShares : String
  transactionPricePerShare : Option String
  directOrIndirectOwnership : String
  derivative_type : String
deriving Repr, DecidableEq

/-- Body of the extraction loop for one transaction entry.  It mirrors the
Python evaluation order: the filter reads securityTitle.value, and on a
title hit reads the issuer's trading symbol (KeyError if either chain is
missing); when the filter passes, price-per-share is read under a bare
try/except that degrades to None, and every other field access raises
KeyError when missing. -/
def processEntry (iss : Option Issuer) (kind : TableKind) (cik_name : String)
    (t : Transaction) : Except PyErr (Option Record) :=
  match t.securityTitle with
  | none => .error .keyError
  | some title =>
    if strIn "Common Stock" title then
      match iss with
      | none => .error .keyError
      | some issuer =>
        match issuer.issuerTradingSymbol with
        | none => .error .keyError
        | some sym =>
          if sym == cik_name then
            match issuer.issuerCik, issuer.issuerName, t.transactionDate,
                  t.transactionAmounts, t.ownershipNature with
            | some cikv, some nm, some date, some amounts, some own =>
              match amounts.transactionShares, own.directOrIndirectOwnership with
              | some shares, some dir =>
                .ok (some {
                  issuerCik := cikv
                  issuerName := nm
                  issuerTradingSymbol := sym
                  securityTitle := title
                  transactionDate := date
                  transactionShares := shares
                  transactionPricePerShare := amounts.transactionPricePerShare
                  directOrIndirectOwnership := dir
                  derivative_type := kind.str })
              | _, _ => .error .keyError
            | _, _, _, _, _ => .error .keyError
          else .ok none
    else .ok none

/-- The extraction loop over the normalized transaction list: entries are
processed in order, each qualifying one appending its record; the first
raising entry aborts the whole extraction. -/
def extractLoop (iss : Option Issuer) (kind : TableKind) (cik : String) :
    List Transaction → Except PyErr (List Record)
  | [] => .ok []
  | t :: ts =>
    match processEntry iss kind cik t with
    | .error e => .error e
    | .ok none => extractLoop iss kind cik ts
    | .ok (some r) =>
      match extractLoop iss kind cik ts with
      | .error e => .error e
      | .ok rest => .ok (r :: rest)

/-- Model of extract_data: an absent table key, a null table value, or an
absent transaction-list key each yield the empty dataframe; otherwise the
transaction-list value is normalized to a list and scanned. -/
def extract_data (doc : OwnershipDocument) (derivative_type : TableKind)
    (cik_name : String) : Except PyErr (List Record) :=
  match getTable doc derivative_type with
  | none => .ok []
  | some none => .ok []
  | some (some tbl) =>
    match getTransList tbl derivative_type with
    | none => .ok []
    | some node => extractLoop doc.issuer derivative_type cik_name node.toList

/-- Model of parse_xml_url on an already-fetched document: extract both
tables and concatenate derivative results before non-derivative ones. -/
def parse_xml_url (doc : OwnershipDocument) (cik_name : String) :
    Except PyErr (List Record) :=
  match extract_data doc .derivativeTable cik_name with
  | .error e => .error e
  | .ok d =>
    match extract_data doc .nonDerivativeTable cik_name with
    | .error e => .error e
    | .ok nd => .ok (d ++ nd)

/-- The network, abstracted: what each fetched-and-parsed URL contains.
load_data reads every page through one of these three views. -/
structure Web where
  listingOf : String → ListingPage
  indexOf : String → IndexPage
  xmlOf : String → OwnershipDocument

/-- Body of load_data's inner loop for one filing subfolder.  Appending a
None folder href or a None find_index_file result to base_url raises
TypeError, exactly as Python `str + None` does; a None xml url is the one
case the code checks, skipping the filing with no records. -/
def processFolder (web : Web) (base_url : String) (cik_name : String)
    (folder_url : Option String) : Except PyErr (List Record) :=
  match folder_url with
  | none => .error .typeError
  | some fu =>
    match get_urls (web.listingOf (base_url ++ fu)) with
    | .error e => .error e
    | .ok file_url_list =>
      match find_index_file file_url_list with
      | .error e => .error e
      | .ok none => .error .typeError
      | .ok (some index_file_url) =>
        match get_form_4_url (web.indexOf (base_url ++ index_file_url)) with
        | .error e => .error e
        | .ok none => .ok []
        | .ok (some xml_url) =>
          parse_xml_url (web.xmlOf (base_url ++ xml_url)) cik_name

/-- Inner loop of load_data over the filing subfolders of one entity.  The
accumulator models final_data_df: `pd.concat([data_df, final_data_df])`
puts each filing's new records in front of the accumulated table. -/
def loadFolders (web : Web) (base_url : String) (cik_name : String) :
    List (Option String) → List Record → Except PyErr (List Record)
  | [], acc => .ok acc
  | f :: fs, acc =>
    match processFolder web base_url cik_name f with
    | .error e => .error e
    | .ok recs => loadFolders web base_url cik_name fs (recs ++ acc)

/-- Outer loop of load_data over the cik dictionary entries. -/
def loadCiks (web : Web) (base_url : String) (extend_url : String) :
    List (String × String) → List Record → Except PyErr (List Record)
  | [], acc => .ok acc
  | (cik_name, cik) :: rest, acc =>
    match get_urls (web.listingOf (base_url ++ extend_url ++ cik)) with
    | .error e => .error e
    | .ok folder_url_list =>
      match loadFolders web base_url cik_name folder_url_list acc with
      | .error e => .error e
      | .ok acc1 => loadCiks web base_url extend_url rest acc1

/-- Model of load_data: crawl every entity of the cik dictionary and
accumulate the extracted records. -/
def load_data (web : Web) (cik_dict : List (String × String))
    (base_url : String) (extend_url : String) : Except PyErr (List Record) :=
  loadCiks web base_url extend_url cik_dict []

/-!
Helper predicates used only in theorem statements, phrasing the row
selection of get_form_4_url as a first-match search.
-/

/-- A row qualifies under the rule the code applies: the form-type cell
contains "FORM 4", or the document cell's text contains "form4"; and the
document cell's text split on `.` ends in "xml". -/
def rowQualifies (row : HtmlRow) : Bool :=
  match row.cells[1]?, row.cells[2]? with
  | some c1, some c2 => rowCond c1 c2
  | _, _ => false

/-- The row rule as the specification words it, with the form-type label
compared by equality to "FORM 4" instead of by containment. -/
def rowQualifiesClaim (row : HtmlRow) : Bool :=
  match row.cells[1]?, row.cells[2]? with
  | some c1, some c2 =>
    (c1.text == "FORM 4" || strIn "form4" c2.text) &&
      (lastSeg '.' c2.text == String.toList "xml")
  | _, _ => false

/-- The anchor target get_form_4_url extracts from a qualifying row. -/
def rowLink (row : HtmlRow) : Option String :=
  (row.cells[2]?).bind fun c2 => c2.anchors.head?.bind Anchor.href

/-- True when the row's document cell exists and holds at least one anchor. -/
def rowHasAnchorB (row : HtmlRow) : Bool :=
  match row.cells[2]? with
  | some c2 => !c2.anchors.isEmpty
  | none => false

/-- First-match phrasing of the scan: the anchor target of the first
qualifying row, none when no row qualifies. -/
def firstForm4Link (rows : List HtmlRow) : Option String :=
  (rows.find? rowQualifies).bind rowLink

/-!
Theorems.
-/

/-- On rows that all expose cells 1 and 2, and whose qualifying rows hold
an anchor in the document cell, the scan of get_form_4_url is the
first-match search firstForm4Link. -/
theorem form4Rows_eq_firstMatch (rows : List HtmlRow)
    (hc : ∀ row ∈ rows,
      ((row.cells[1]?).isSome && (row.cells[2]?).isSome) = true)
    (ha : ∀ row ∈ rows, rowQualifies row = true → rowHasAnchorB row = true) :
    form4Rows rows = .ok (firstForm4Link rows) := by
  induction rows with
  | nil => rfl
  | cons row rest ih =>
    have hm : row ∈ row :: rest := List.mem_cons_self row rest
    have hcm := hc row hm
    rw [Bool.and_eq_true] at hcm
    obtain ⟨hs1, hs2⟩ := hcm
    obtain ⟨c1, h1⟩ := Option.isSome_iff_exists.mp hs1
    obtain ⟨c2, h2⟩ := Option.isSome_iff_exists.mp hs2
    by_cases hq : rowCond c1 c2 = true
    · have hqr : rowQualifies row = true := by simp [rowQualifies, h1, h2, hq]
      have hanch := ha row hm hqr
      simp only [rowHasAnchorB, h2] at hanch
      cases hA : c2.anchors with
      | nil => rw [hA] at hanch; simp at hanch
      | cons a as =>
        have hfind : List.find? rowQualifies (row :: rest) = some row :=
          List.find?_cons_of_pos _ hqr
        simp [form4Rows, h1, h2, hq, hA, firstForm4Link, hfind, rowLink]
    · have hq2 : rowCond c1 c2 = false := by simpa using hq
      have hqr : rowQualifies row = false := by simp [rowQualifies, h1, h2, hq2]
      have step : form4Rows (row :: rest) = form4Rows rest := by
        simp [form4Rows, h1, h2, hq2]
      have hfind : List.find? rowQualifies (row :: rest) = List.find? rowQualifies rest :=
        List.find?_cons_of_neg _ (by simp [hqr])
      rw [step, ih (fun r hr => hc r (List.mem_cons_of_mem row hr))
        (fun r hr => ha r (List.mem_cons_of_mem row hr))]
      simp [firstForm4Link, hfind]

/-- C1 (amended): for every index page with a table whose rows after the
header all expose the cells at positions 1 and 2 and whose qualifying rows
hold an anchor in the document cell, get_form_4_url returns the anchor
target of the first row after the header such that (the form-type cell's
text CONTAINS "FORM 4" or the document cell's text contains "form4") and
the document cell's text split on "." ends in "xml"; none if no row
qualifies. -/
theorem get_form_4_url_first_contains (p : IndexPage) (tbl : List HtmlRow)
    (rest : List (List HtmlRow)) (ht : p.tables = tbl :: rest)
    (hc : ∀ row ∈ tbl.drop 1,
      ((row.cells[1]?).isSome && (row.cells[2]?).isSome) = true)
    (ha : ∀ row ∈ tbl.drop 1, rowQualifies row = true → rowHasAnchorB row = true) :
    get_form_4_url p = .ok (firstForm4Link (tbl.drop 1)) := by
  simp only [get_form_4_url, ht]
  exact form4Rows_eq_firstMatch _ hc ha

/-- Header row of the concrete index page used for claim C1. -/
def c1HeaderRow : HtmlRow := ⟨[⟨"Seq", []⟩, ⟨"Type", []⟩, ⟨"Document", []⟩]⟩

/-- Data row of the concrete index page used for claim C1: its form-type
cell reads "FORM 4/A", which contains but does not equal "FORM 4". -/
def c1DataRow : HtmlRow :=
  ⟨[⟨"1", []⟩, ⟨"FORM 4/A", []⟩, ⟨"a.xml", [⟨some "a.xml"⟩]⟩]⟩

/-- The concrete index page used for claim C1. -/
def c1Page : IndexPage := ⟨[[c1HeaderRow, c1DataRow]]⟩

/-- C1 counterexample: on a page whose only data row has form-type text
"FORM 4/A", no row qualifies under the claim's equality rule, yet
get_form_4_url returns that row's link rather than none: the code compares
by substring containment, not equality. -/
theorem get_form_4_url_equality_counterexample :
    get_form_4_url c1Page = .ok (some "a.xml") ∧
    (∀ row ∈ [c1HeaderRow, c1DataRow].drop 1, rowQualifiesClaim row = false) ∧
    (Except.ok (some "a.xml") : Except PyErr (Option String)) ≠ .ok none := by
  refine ⟨rfl, by decide, by simp⟩

/-- C1 witness: the amended theorem applied to the concrete page, where the
first (and only) qualifying row's link is "a.xml". -/
theorem get_form_4_url_first_contains_witness :
    get_form_4_url c1Page = .ok (firstForm4Link ([c1HeaderRow, c1DataRow].drop 1)) ∧
    firstForm4Link ([c1HeaderRow, c1DataRow].drop 1) = some "a.xml" :=
  ⟨get_form_4_url_first_contains c1Page [c1HeaderRow, c1DataRow] [] rfl
      (by decide) (by decide),
    by rfl⟩

/-- C4 counterexample: on a directory-listing page with zero table
elements, get_urls raises an AttributeError (find('table') yields None and
find_all is called on it); in particular it does not return the empty
sequence the claim promises. -/
theorem get_urls_no_table_counterexample :
    get_urls ⟨[]⟩ = .error .attributeError ∧ get_urls ⟨[]⟩ ≠ .ok [] :=
  ⟨rfl, fun h => Except.noConfusion h⟩

/-- C4 (amended): for every directory-listing page with zero table
elements, get_urls raises an AttributeError instead of returning a link
sequence. -/
theorem get_urls_no_table_raises (p : ListingPage) (h : p.tables = []) :
    get_urls p = .error .attributeError := by
  simp [get_urls, h]

/-- C4 witness: the amended theorem applied to the concrete empty page. -/
theorem get_urls_no_table_raises_witness :
    get_urls ⟨[]⟩ = .error .attributeError :=
  get_urls_no_table_raises ⟨[]⟩ rfl

/-- C6: over links that are all present strings, find_index_file returns a
link iff at least one link's split on `-` ends in "index.html", and the
link returned is the first matching one in list order. -/
theorem find_index_file_first_match (l : List String) :
    ((∃ u, find_index_file (l.map some) = .ok (some u)) ↔
       ∃ u ∈ l, isIndexLink u = true) ∧
    ∀ u, find_index_file (l.map some) = .ok (some u) →
      isIndexLink u = true ∧
        ∃ pre post, l = pre ++ u :: post ∧ ∀ v ∈ pre, isIndexLink v = false := by
  induction l with
  | nil =>
    refine ⟨⟨?_, ?_⟩, ?_⟩
    · rintro ⟨u, hu⟩; simp [find_index_file] at hu
    · rintro ⟨u, hu, _⟩; simp at hu
    · intro u hu; simp [find_index_file] at hu
  | cons a l ih =>
    by_cases ha : isIndexLink a = true
    · refine ⟨⟨?_, ?_⟩, ?_⟩
      · intro _; exact ⟨a, List.mem_cons_self a l, ha⟩
      · intro _; exact ⟨a, by simp [find_index_file, ha]⟩
      · intro u hu
        simp [find_index_file, ha] at hu
        subst hu
        exact ⟨ha, [], l, rfl, by simp⟩
    · have ha2 : isIndexLink a = false := by simpa using ha
      have hstep : find_index_file ((a :: l).map some) = find_index_file (l.map some) := by
        simp [find_index_file, ha2]
      refine ⟨⟨?_, ?_⟩, ?_⟩
      · intro h
        obtain ⟨u, hu, hi⟩ := ih.1.mp (hstep ▸ h)
        exact ⟨u, List.mem_cons_of_mem a hu, hi⟩
      · rintro ⟨u, hu, hi⟩
        rcases List.mem_cons.mp hu with h | h
        · subst h; simp [hi] at ha2
        · exact hstep ▸ ih.1.mpr ⟨u, h, hi⟩
      · intro u hu
        rw [hstep] at hu
        obtain ⟨hi, pre, post, heq, hpre⟩ := ih.2 u hu
        refine ⟨hi, a :: pre, post, by rw [heq]; rfl, ?_⟩
        intro v hv
        rcases List.mem_cons.mp hv with h | h
        · rw [h]; exact ha2
        · exact hpre v h

/-- Facts holding of every record processEntry emits: its title passed the
containment filter, its trading symbol is the entity key, its tag is the
table-kind string, and its price is the optional chained read. -/
theorem processEntry_ok_facts (iss : Option Issuer) (kind : TableKind)
    (cik : String) (t : Transaction) (r : Record)
    (h : processEntry iss kind cik t = .ok (some r)) :
    strIn "Common Stock" r.securityTitle = true ∧
    r.issuerTradingSymbol = cik ∧
    r.derivative_type = kind.str ∧
    r.transactionPricePerShare =
      t.transactionAmounts.bind TransactionAmounts.transactionPricePerShare := by
  rcases ht : t.securityTitle with _ | title
  · simp [processEntry, ht] at h
  cases hcs : strIn "Common Stock" title with
  | false => simp [processEntry, ht, hcs] at h
  | true =>
  rcases hiss : iss with _ | issuer
  · simp [processEntry, ht, hcs, hiss] at h
  rcases hsym : issuer.issuerTradingSymbol with _ | sym
  · simp [processEntry, ht, hcs, hiss, hsym] at h
  cases hbeq : sym == cik with
  | false => simp [processEntry, ht, hcs, hiss, hsym, hbeq] at h
  | true =>
  rcases hcik : issuer.issuerCik with _ | cikv
  · simp [processEntry, ht, hcs, hiss, hsym, hbeq, hcik] at h
  rcases hnm : issuer.issuerName with _ | nm
  · simp [processEntry, ht, hcs, hiss, hsym, hbeq, hcik, hnm] at h
  rcases hdate : t.transactionDate with _ | date
  · simp [processEntry, ht, hcs, hiss, hsym, hbeq, hcik, hnm, hdate] at h
  rcases hams : t.transactionAmounts with _ | amounts
  · simp [processEntry, ht, hcs, hiss, hsym, hbeq, hcik, hnm, hdate, hams] at h
  rcases hown : t.ownershipNature with _ | own
  · simp [processEntry, ht, hcs, hiss, hsym, hbeq, hcik, hnm, hdate, hams, hown] at h
  rcases hsh : amounts.transactionShares with _ | shares
  · simp [processEntry, ht, hcs, hiss, hsym, hbeq, hcik, hnm, hdate, hams, hown, hsh] at h
  rcases hdir : own.directOrIndirectOwnership with _ | dir
  · simp [processEntry, ht, hcs, hiss, hsym, hbeq, hcik, hnm, hdate, hams, hown, hsh,
      hdir] at h
  simp [processEntry, ht, hcs, hiss, hsym, hbeq, hcik, hnm, hdate, hams, hown, hsh,
    hdir] at h
  subst h
  exact ⟨hcs, eq_of_beq hbeq, rfl, by simp [hams]⟩

/-- Every record in a successful extractLoop result was emitted by
processEntry on some entry. -/
theorem extractLoop_mem (iss : Option Issuer) (kind : TableKind) (cik : String) :
    ∀ (ts : List Transaction) (recs : List Record),
      extractLoop iss kind cik ts = .ok recs →
      ∀ r ∈ recs, ∃ t, processEntry iss kind cik t = .ok (some r) := by
  intro ts
  induction ts with
  | nil =>
    intro recs h r hr
    simp only [extractLoop] at h
    obtain rfl : ([] : List Record) = recs := by simpa using h
    simp at hr
  | cons t ts ih =>
    intro recs h r hr
    simp only [extractLoop] at h
    rcases hp : processEntry iss kind cik t with e | (_ | r0) <;> rw [hp] at h
    · simp at h
    · exact ih recs h r hr
    · rcases hl : extractLoop iss kind cik ts with e2 | rest <;> rw [hl] at h
      · simp at h
      · obtain rfl : r0 :: rest = recs := by simpa using h
        rcases List.mem_cons.mp hr with h0 | h0
        · exact ⟨t, h0 ▸ hp⟩
        · exact ih rest hl r h0

/-- Every record in a successful extract_data result was emitted by
processEntry on some entry, against the document's issuer block. -/
theorem extract_data_mem (doc : OwnershipDocument) (kind : TableKind)
    (cik : String) (recs : List Record)
    (h : extract_data doc kind cik = .ok recs) (r : Record) (hr : r ∈ recs) :
    ∃ t, processEntry doc.issuer kind cik t = .ok (some r) := by
  unfold extract_data at h
  rcases hg : getTable doc kind with _ | (_ | tbl) <;> simp only [hg] at h
  · obtain rfl : ([] : List Record) = recs := by simpa using h
    simp at hr
  · obtain rfl : ([] : List Record) = recs := by simpa using h
    simp at hr
  · rcases hl : getTransList tbl kind with _ | node <;> simp only [hl] at h
    · obtain rfl : ([] : List Record) = recs := by simpa using h
      simp at hr
    · exact extractLoop_mem _ _ _ _ recs h r hr

/-- C2: a record is emitted only when the entry's security title contains
the substring "Common Stock" and the document's issuer trading symbol
equals the entity key exactly; in particular no emitted record is titled
"Stock Option". -/
theorem extract_emitted_filter (doc : OwnershipDocument) (kind : TableKind)
    (cik : String) (recs : List Record)
    (h : extract_data doc kind cik = .ok recs) (r : Record) (hr : r ∈ recs) :
    strIn "Common Stock" r.securityTitle = true ∧
    r.issuerTradingSymbol = cik ∧
    r.securityTitle ≠ "Stock Option" := by
  obtain ⟨t, hp⟩ := extract_data_mem doc kind cik recs h r hr
  obtain ⟨h1, h2, _, _⟩ := processEntry_ok_facts _ _ _ _ _ hp
  refine ⟨h1, h2, ?_⟩
  intro hso
  rw [hso] at h1
  exact absurd h1 (by decide)

/-- The transaction entry of the concrete document used for claim C2. -/
def c2Trans : Transaction :=
  { securityTitle := some "Common Stock, par value $0.01"
    transactionDate := some "2021-05-04"
    transactionAmounts := some
      { transactionShares := some "100", transactionPricePerShare := some "12.50" }
    ownershipNature := some { directOrIndirectOwnership := some "D" } }

/-- The concrete ownership document used for claim C2. -/
def c2Doc : OwnershipDocument :=
  { issuer := some
      { issuerCik := some "0000320193"
        issuerName := some "ABC Inc"
        issuerTradingSymbol := some "ABC" }
    derivativeTable := none
    nonDerivativeTable := some (some
      { derivativeTransaction := none
        nonDerivativeTransaction := some (.list [c2Trans]) }) }

/-- The record extract_data emits from c2Doc. -/
def c2Rec : Record :=
  { issuerCik := "0000320193"
    issuerName := "ABC Inc"
    issuerTradingSymbol := "ABC"
    securityTitle := "Common Stock, par value $0.01"
    transactionDate := "2021-05-04"
    transactionShares := "100"
    transactionPricePerShare := some "12.50"
    directOrIndirectOwnership := "D"
    derivative_type := "nonDerivativeTable" }

/-- A document identical to c2Doc except the entry is titled
"Stock Option (right to buy)". -/
def c2OptDoc : OwnershipDocument :=
  { issuer := c2Doc.issuer
    derivativeTable := none
    nonDerivativeTable := some (some
      { derivativeTransaction := none
        nonDerivativeTransaction := some (.list
          [{ c2Trans with securityTitle := some "Stock Option (right to buy)" }]) }) }

/-- C2 witness: the filter theorem applied to the concrete document, plus
the concrete check that a "Stock Option" entry yields no record at all. -/
theorem extract_emitted_filter_witness :
    (strIn "Common Stock" c2Rec.securityTitle = true ∧
      c2Rec.issuerTradingSymbol = "ABC" ∧ c2Rec.securityTitle ≠ "Stock Option") ∧
    extract_data c2OptDoc .nonDerivativeTable "ABC" = .ok [] :=
  ⟨extract_emitted_filter c2Doc .nonDerivativeTable "ABC" [c2Rec] rfl c2Rec
      (List.Mem.head _),
    rfl⟩

/-- C3 (amended): every emitted record's derivative_type is the table-kind
string the extractor ran under, i.e. exactly one of "derivativeTable" and
"nonDerivativeTable", matching the table the entry came from. -/
theorem extract_derivative_type_tag (doc : OwnershipDocument) (kind : TableKind)
    (cik : String) (recs : List Record)
    (h : extract_data doc kind cik = .ok recs) (r : Record) (hr : r ∈ recs) :
    r.derivative_type = kind.str ∧
    (r.derivative_type = "derivativeTable" ∨
      r.derivative_type = "nonDerivativeTable") := by
  obtain ⟨t, hp⟩ := extract_data_mem doc kind cik recs h r hr
  obtain ⟨_, _, h3, _⟩ := processEntry_ok_facts _ _ _ _ _ hp
  refine ⟨h3, ?_⟩
  cases kind
  · exact Or.inl h3
  · exact Or.inr h3

/-- The transaction entry of the concrete document used for claim C3. -/
def c3Trans : Transaction :=
  { securityTitle := some "Common Stock"
    transactionDate := some "2022-03-01"
    transactionAmounts := some
      { transactionShares := some "250", transactionPricePerShare := some "31.10" }
    ownershipNature := some { directOrIndirectOwnership := some "I" } }

/-- The concrete ownership document used for claim C3: its
nonDerivativeTable holds a single transaction object, not a list. -/
def c3Doc : OwnershipDocument :=
  { issuer := some
      { issuerCik := some "0000789019"
        issuerName := some "XYZ Corp"
        issuerTradingSymbol := some "XYZ" }
    derivativeTable := none
    nonDerivativeTable := some (some
      { derivativeTransaction := none
        nonDerivativeTransaction := some (.single c3Trans) }) }

/-- The record extract_data emits from c3Doc. -/
def c3Rec : Record :=
  { issuerCik := "0000789019"
    issuerName := "XYZ Corp"
    issuerTradingSymbol := "XYZ"
    securityTitle := "Common Stock"
    transactionDate := "2022-03-01"
    transactionShares := "250"
    transactionPricePerShare := some "31.10"
    directOrIndirectOwnership := "I"
    derivative_type := "nonDerivativeTable" }

/-- C3 counterexample: the record extracted from a nonDerivativeTable entry
carries derivative_type "nonDerivativeTable", the verbatim table-key
string, not "non-derivative" (nor "derivative") as the claim states. -/
theorem extract_derivative_type_counterexample :
    extract_data c3Doc .nonDerivativeTable "XYZ" = .ok [c3Rec] ∧
    c3Rec.derivative_type = "nonDerivativeTable" ∧
    c3Rec.derivative_type ≠ "non-derivative" ∧
    c3Rec.derivative_type ≠ "derivative" := by
  refine ⟨rfl, rfl, by decide, by decide⟩

/-- C3 witness: the amended tag theorem applied to the concrete document. -/
theorem extract_derivative_type_tag_witness :
    c3Rec.derivative_type = TableKind.str .nonDerivativeTable ∧
    (c3Rec.derivative_type = "derivativeTable" ∨
      c3Rec.derivative_type = "nonDerivativeTable") :=
  extract_derivative_type_tag c3Doc .nonDerivativeTable "XYZ" [c3Rec] rfl c3Rec
    (List.Mem.head _)

/-- C7: an absent table key, a null table value, or a table without its
transaction-list key each make extract_data return the empty record list
without raising. -/
theorem extract_data_absent_empty (doc : OwnershipDocument) (kind : TableKind)
    (cik : String)
    (h : getTable doc kind = none ∨ getTable doc kind = some none ∨
      ∃ tbl, getTable doc kind = some (some tbl) ∧ getTransList tbl kind = none) :
    extract_data doc kind cik = .ok [] := by
  rcases h with h | h | ⟨tbl, h1, h2⟩
  · simp [extract_data, h]
  · simp [extract_data, h]
  · simp [extract_data, h1, h2]

/-- C7 witness: the empty-result theorem applied to three concrete
documents, one per absence case. -/
theorem extract_data_absent_empty_witness :
    extract_data ⟨none, none, none⟩ .derivativeTable "ABC" = .ok [] ∧
    extract_data ⟨none, some none, none⟩ .derivativeTable "ABC" = .ok [] ∧
    extract_data ⟨none, none, some (some ⟨none, none⟩)⟩ .nonDerivativeTable "ABC" =
      .ok [] :=
  ⟨extract_data_absent_empty ⟨none, none, none⟩ .derivativeTable "ABC" (Or.inl rfl),
    extract_data_absent_empty ⟨none, some none, none⟩ .derivativeTable "ABC"
      (Or.inr (Or.inl rfl)),
    extract_data_absent_empty ⟨none, none, some (some ⟨none, none⟩)⟩
      .nonDerivativeTable "ABC" (Or.inr (Or.inr ⟨⟨none, none⟩, rfl, rfl⟩))⟩

/-- C8: a transaction-list value that is a single object is treated as the
one-element sequence; a single qualifying entry therefore yields exactly
its one record. -/
theorem extract_data_single_object (doc : OwnershipDocument) (kind : TableKind)
    (cik : String) (tbl : XmlTable) (t : Transaction) (r : Record)
    (h1 : getTable doc kind = some (some tbl))
    (h2 : getTransList tbl kind = some (.single t))
    (h3 : processEntry doc.issuer kind cik t = .ok (some r)) :
    extract_data doc kind cik = .ok [r] := by
  simp [extract_data, h1, h2, TransactionNode.toList, extractLoop, h3]

/-- The single transaction entry of the concrete document for claim C8. -/
def c8Trans : Transaction :=
  { securityTitle := some "Common Stock"
    transactionDate := some "2020-11-20"
    transactionAmounts := some
      { transactionShares := some "42", transactionPricePerShare := some "12.50" }
    ownershipNature := some { directOrIndirectOwnership := some "D" } }

/-- The concrete single-object document for claim C8. -/
def c8Doc : OwnershipDocument :=
  { issuer := some
      { issuerCik := some "0000123456"
        issuerName := some "DEF Ltd"
        issuerTradingSymbol := some "DEF" }
    derivativeTable := none
    nonDerivativeTable := some (some
      { derivativeTransaction := none
        nonDerivativeTransaction := some (.single c8Trans) }) }

/-- The record extract_data emits from c8Doc. -/
def c8Rec : Record :=
  { issuerCik := "0000123456"
    issuerName := "DEF Ltd"
    issuerTradingSymbol := "DEF"
    securityTitle := "Common Stock"
    transactionDate := "2020-11-20"
    transactionShares := "42"
    transactionPricePerShare := some "12.50"
    directOrIndirectOwnership := "D"
    derivative_type := "nonDerivativeTable" }

/-- C8 witness: the single-object theorem applied to the concrete document,
yielding exactly one record. -/
theorem extract_data_single_object_witness :
    extract_data c8Doc .nonDerivativeTable "DEF" = .ok [c8Rec] :=
  extract_data_single_object c8Doc .nonDerivativeTable "DEF"
    { derivativeTransaction := none
      nonDerivativeTransaction := some (.single c8Trans) }
    c8Trans c8Rec rfl rfl rfl

/-- C9: the price of every emitted record is exactly the optional chained
read of transactionAmounts.transactionPricePerShare: null whenever the
chain has a missing link, the source value otherwise, and the read itself
cannot fail. -/
theorem processEntry_price_optional (iss : Option Issuer) (kind : TableKind)
    (cik : String) (t : Transaction) (r : Record)
    (h : processEntry iss kind cik t = .ok (some r)) :
    r.transactionPricePerShare =
      t.transactionAmounts.bind TransactionAmounts.transactionPricePerShare ∧
    (t.transactionAmounts.bind TransactionAmounts.transactionPricePerShare = none →
      r.transactionPricePerShare = none) := by
  obtain ⟨_, _, _, h4⟩ := processEntry_ok_facts _ _ _ _ _ h
  exact ⟨h4, fun hn => h4.trans hn⟩

/-- The issuer block of the concrete entry for claim C9. -/
def c9Issuer : Issuer :=
  { issuerCik := some "0000999999"
    issuerName := some "GHI Plc"
    issuerTradingSymbol := some "GHI" }

/-- The concrete entry for claim C9: its transactionPricePerShare chain is
missing while every required field is present. -/
def c9Trans : Transaction :=
  { securityTitle := some "Common Stock"
    transactionDate := some "2019-07-09"
    transactionAmounts := some
      { transactionShares := some "7", transactionPricePerShare := none }
    ownershipNature := some { directOrIndirectOwnership := some "D" } }

/-- The record processEntry emits from c9Trans. -/
def c9Rec : Record :=
  { issuerCik := "0000999999"
    issuerName := "GHI Plc"
    issuerTradingSymbol := "GHI"
    securityTitle := "Common Stock"
    transactionDate := "2019-07-09"
    transactionShares := "7"
    transactionPricePerShare := none
    directOrIndirectOwnership := "D"
    derivative_type := "nonDerivativeTable" }

/-- C9 witness: the price theorem applied to the concrete entry with a
missing price field, whose record indeed carries a null price. -/
theorem processEntry_price_optional_witness :
    (c9Rec.transactionPricePerShare =
        c9Trans.transactionAmounts.bind TransactionAmounts.transactionPricePerShare ∧
      (c9Trans.transactionAmounts.bind TransactionAmounts.transactionPricePerShare =
          none →
        c9Rec.transactionPricePerShare = none)) ∧
    c9Rec.transactionPricePerShare = none :=
  ⟨processEntry_price_optional (some c9Issuer) .nonDerivativeTable "GHI" c9Trans
      c9Rec rfl,
    rfl⟩

/-- C10: when an entry would pass the emission filter but any required
field chain is missing (securityTitle, the issuer block's trading symbol,
issuerCik or issuerName, transactionDate, transactionShares, or
directOrIndirectOwnership), processEntry raises KeyError instead of
emitting a record with a null in that field. -/
theorem processEntry_required_fields (iss : Option Issuer) (kind : TableKind)
    (cik : String) (t : Transaction)
    (h : t.securityTitle = none ∨
      ∃ title, t.securityTitle = some title ∧ strIn "Common Stock" title = true ∧
        (iss.bind Issuer.issuerTradingSymbol = none ∨
          ∃ issuer, iss = some issuer ∧ issuer.issuerTradingSymbol = some cik ∧
            (issuer.issuerCik = none ∨ issuer.issuerName = none ∨
              t.transactionDate = none ∨ t.transactionAmounts = none ∨
              (∃ amounts, t.transactionAmounts = some amounts ∧
                amounts.transactionShares = none) ∨
              t.ownershipNature = none ∨
              (∃ own, t.ownershipNature = some own ∧
                own.directOrIndirectOwnership = none)))) :
    processEntry iss kind cik t = .error .keyError := by
  rcases h with h | ⟨title, ht, hcs, h⟩
  · simp [processEntry, h]
  rcases h with h | ⟨issuer, hiss, hsym, h⟩
  · rcases hi : iss with _ | issuer
    · simp [processEntry, ht, hcs]
    · rw [hi] at h
      simp at h
      simp [processEntry, ht, hcs, h]
  · subst hiss
    rcases hcik : issuer.issuerCik with _ | cikv
    · simp [processEntry, ht, hcs, hsym, hcik]
    rcases hnm : issuer.issuerName with _ | nm
    · simp [processEntry, ht, hcs, hsym, hcik, hnm]
    rcases hdate : t.transactionDate with _ | date
    · simp [processEntry, ht, hcs, hsym, hcik, hnm, hdate]
    rcases hams : t.transactionAmounts with _ | amounts
    · simp [processEntry, ht, hcs, hsym, hcik, hnm, hdate, hams]
    rcases hown : t.ownershipNature with _ | own
    · simp [processEntry, ht, hcs, hsym, hcik, hnm, hdate, hams, hown]
    rcases hsh : amounts.transactionShares with _ | shares
    · simp [processEntry, ht, hcs, hsym, hcik, hnm, hdate, hams, hown, hsh]
    rcases hdir : own.directOrIndirectOwnership with _ | dir
    · simp [processEntry, ht, hcs, hsym, hcik, hnm, hdate, hams, hown, hsh, hdir]
    exfalso
    rcases h with h | h | h | h | ⟨amounts2, ham2, hsh2⟩ | h | ⟨own2, how2, hdir2⟩ <;>
      simp_all

/-- The issuer block of the concrete entry for claim C10. -/
def c10Issuer : Issuer :=
  { issuerCik := some "0000111111"
    issuerName := some "JKL Co"
    issuerTradingSymbol := some "JKL" }

/-- The concrete entry for claim C10: it passes the filter but its
transactionDate chain is missing. -/
def c10Trans : Transaction :=
  { securityTitle := some "Common Stock"
    transactionDate := none
    transactionAmounts := some
      { transactionShares := some "3", transactionPricePerShare := some "1.00" }
    ownershipNature := some { directOrIndirectOwnership := some "D" } }

/-- C10 witness: the required-fields theorem applied to the concrete entry
with a missing transaction date. -/
theorem processEntry_required_fields_witness :
    processEntry (some c10Issuer) .nonDerivativeTable "JKL" c10Trans =
      .error .keyError :=
  processEntry_required_fields (some c10Issuer) .nonDerivativeTable "JKL" c10Trans
    (Or.inr ⟨"Common Stock", rfl, by decide,
      Or.inr ⟨c10Issuer, rfl, rfl, Or.inr (Or.inr (Or.inl rfl))⟩⟩)

/-- The one-page web used for claim C5: every listing shows one table with
a single anchor to "a.txt", so the entity's folder list is ["a.txt"] and
the folder's file list is ["a.txt"], which holds no index.html link. -/
def c5Web : Web where
  listingOf := fun _ => ⟨[[⟨some "a.txt"⟩]]⟩
  indexOf := fun _ => ⟨[]⟩
  xmlOf := fun _ => ⟨none, none, none⟩

/-- C5: on a crawl whose filing subfolder has no index link, load_data does
not skip the filing: find_index_file falls through returning None, and
base_url + None raises TypeError, aborting the crawl (the None check that
guards xml_url is missing for index_file_url). -/
theorem load_data_missing_index_typeerror :
    load_data c5Web [("ABC", "0000123456")] "" "" = .error .typeError := rfl
theorem find_index_file_first_match_witness :
    (∃ u ∈ ["a.txt", "x-index.html", "y-index.html"], isIndexLink u = true) ∧
    (isIndexLink "x-index.html" = true ∧
      ∃ pre post,
        ["a.txt", "x-index.html", "y-index.html"] = pre ++ "x-index.html" :: post ∧
          ∀ v ∈ pre, isIndexLink v = false) :=
  ⟨(find_index_file_first_match ["a.txt", "x-index.html", "y-index.html"]).1.mp
      ⟨"x-index.html", by rfl⟩,
    (find_index_file_first_match ["a.txt", "x-index.html", "y-index.html"]).2
      "x-index.html" (by rfl)⟩
